import Mathlib

/-!
# Shallow embedding of the GCF gen2 Remix adapter

This file embeds `packages/remix-gcloud-functions-gen2/server.ts`, a
request/response translation shim between the Google Cloud Functions
(Express-style) middleware model and the fetch-style request/response
contract expected by Remix.  The source file carries two historical
variants of the adapter, identical except for `sendRemixResponse`
(and the Remix API they call into); we name them `V1` (the first
variant in the file, using `res.send` and an explicit stream `end`
listener) and `V2` (the second variant, using `res.end` and a bare
`pipe`).  The request-construction side (`createRemixHeaders`,
`createRemixRequest`, `createRemixBody`, `hasBody`) is the same code
in both variants and is embedded once.

External platform primitives used by the adapter (the WHATWG `URL`
constructor, `URLSearchParams` serialization, the fetch `Headers`
container, Node stream `pipe` semantics) are modelled explicitly with
doc comments stating the scope of the model.
-/

namespace RemixGcf

/-- A value of the platform's header mapping, `string | string[] | undefined`
(the value type of Express/Node `IncomingHttpHeaders`).  The JS truthiness
test `if (values)` skips `undefined` and the empty string; arrays are always
truthy. -/
inductive HeaderValue where
  | str (s : String)
  | arr (vs : List String)
  | undef
deriving DecidableEq

/-- ASCII lowercasing of a string, written over `String.data` so that proofs
can reason by list induction.  Used to model the case-insensitivity of the
fetch `Headers` container. -/
def lowerStr (s : String) : String :=
  String.mk (s.data.map Char.toLower)

/-- Model of the fetch-style `Headers` container (`new Headers()` /
`NodeHeaders`): an ordered multimap.  Header names are case-insensitive; we
store names lowercased, which preserves exactly the observations the adapter
makes of the container (`append`, `set`, and the per-name value lists that
`headers.raw()` exposes). -/
structure NodeHeaders where
  entries : List (String × String)
deriving DecidableEq

/-- `Headers.prototype.append`: adds a name/value pair at the end, keeping
any previous values for the name. -/
def NodeHeaders.append (h : NodeHeaders) (name value : String) : NodeHeaders :=
  ⟨h.entries ++ [(lowerStr name, value)]⟩

/-- `Headers.prototype.set`: removes every value previously held under the
(case-insensitive) name and stores the single given value. -/
def NodeHeaders.set (h : NodeHeaders) (name value : String) : NodeHeaders :=
  ⟨h.entries.filter (fun p => p.1 != lowerStr name) ++ [(lowerStr name, value)]⟩

/-- The list of values held under a (case-insensitive) name, in insertion
order — the observation `headers.raw()[name]` makes. -/
def NodeHeaders.values (h : NodeHeaders) (name : String) : List String :=
  (h.entries.filter (fun p => p.1 == lowerStr name)).map Prod.snd

/-- The platform request as the adapter reads it: `req.protocol`,
`req.get("host")` (`none` when the request carries no usable host header),
`req.url` (the raw path+query of the request target), `req.method`, the
header mapping in `Object.entries` order, and the body already parsed by the
platform middleware into a flat key/value structure (`none` models
`undefined`/`null`, `some []` models `{}`). -/
structure GcfRequest where
  protocol : String
  host : Option String
  url : String
  method : String
  headers : List (String × HeaderValue)
  body : Option (List (String × String))
deriving DecidableEq

/-- `AbortController` as the adapter uses it: a single abort flag.  In JS the
controller is a live reference; the bridge reads `signal.aborted` at exactly
one point (just before body finalization), so a value model suffices. -/
structure AbortController where
  aborted : Bool
deriving DecidableEq

/-- The Standard Request (`new NodeRequest(url.href, init)` /
`new Request(url.href, init)`): the absolute URL string, the method, the
translated header collection, the optional re-serialized body
(`none` when no body was attached), and the aborted state of the attached
signal at construction time. -/
structure NodeRequest where
  href : String
  method : String
  headers : NodeHeaders
  body : Option String
  signalAborted : Bool
deriving DecidableEq

/-- `createRemixHeaders`, one `Object.entries` step (server.ts lines 71-81 /
228-238): falsy values contribute nothing, arrays are appended value by
value, a truthy scalar is `set`. -/
def applyHeader (headers : NodeHeaders) : String × HeaderValue → NodeHeaders
  | (_key, HeaderValue.undef) => headers
  | (key, HeaderValue.str s) => if s = "" then headers else headers.set key s
  | (key, HeaderValue.arr vs) => vs.foldl (fun h v => h.append key v) headers

/-- `createRemixHeaders` (server.ts lines 66-84 / 225-241): fold the
platform's header mapping into a fresh `Headers` container. -/
def createRemixHeaders (requestHeaders : List (String × HeaderValue)) : NodeHeaders :=
  requestHeaders.foldl applyHeader ⟨[]⟩

/-- `hasBody` (server.ts lines 147-156 / 295-302): the parsed body is
present iff it is truthy (`none` models `undefined`/`null`) and the
`for..in` loop finds at least one enumerable key. -/
def hasBody (req : GcfRequest) : Bool :=
  match req.body with
  | none => false
  | some pairs => !pairs.isEmpty

/-- UTF-8 encoding of one character, as the byte values the platform
serializer percent-encodes. -/
def utf8Bytes (c : Char) : List Nat :=
  let n := c.toNat
  if n < 128 then [n]
  else if n < 2048 then [192 + n / 64, 128 + n % 64]
  else if n < 65536 then [224 + n / 4096, 128 + (n / 64) % 64, 128 + n % 64]
  else [240 + n / 262144, 128 + (n / 4096) % 64, 128 + (n / 64) % 64, 128 + n % 64]

/-- Uppercase hexadecimal digit for percent-escapes. -/
def hexDigit (n : Nat) : Char :=
  if n < 10 then Char.ofNat (48 + n) else Char.ofNat (55 + n)

/-- One byte of `application/x-www-form-urlencoded` output: space becomes
`+`; alphanumerics and `*`, `-`, `.`, `_` pass through; every other byte is
percent-escaped. -/
def encodeByte (n : Nat) : List Char :=
  if n = 32 then ['+']
  else if (48 ≤ n && n ≤ 57) || (65 ≤ n && n ≤ 90) || (97 ≤ n && n ≤ 122)
      || n == 42 || n == 45 || n == 46 || n == 95 then [Char.ofNat n]
  else ['%', hexDigit (n / 16), hexDigit (n % 16)]

/-- Form-urlencoding of one string (the escaping `URLSearchParams` applies
to each key and value). -/
def formEncode (s : String) : String :=
  String.mk (((s.data.map utf8Bytes).flatten.map encodeByte).flatten)

/-- Model of `new URLSearchParams(record).toString()`: the record's
key/value pairs in encounter order, each form-urlencoded, joined as
`k=v` pairs with `&`. -/
def serializeSearchParams (pairs : List (String × String)) : String :=
  String.intercalate "&" (pairs.map (fun p => formEncode p.1 ++ "=" ++ formEncode p.2))

/-- `createRemixBody` (server.ts lines 143-145 / 291-293):
`Buffer.from(new URLSearchParams(req.body).toString())`.  The buffer's byte
content is modelled as the serialized string (`new URLSearchParams(undefined)`
serializes to the empty string, hence the `getD []`). -/
def createRemixBody (req : GcfRequest) : String :=
  serializeSearchParams (req.body.getD [])

/-- Finds the first `"://"` in a character list and splits around it —
the scheme/authority split the WHATWG URL parser performs on the base
string the adapter builds. -/
def splitScheme : List Char → Option (List Char × List Char)
  | [] => none
  | c :: rest =>
    if c = ':' ∧ rest.take 2 = ['/', '/'] then some ([], rest.drop 2)
    else
      match splitScheme rest with
      | none => none
      | some p => some (c :: p.1, p.2)

/-- Characters that terminate the authority section of a URL. -/
def hostEndChar (c : Char) : Bool :=
  c == '/' || c == '?' || c == '#'

/-- Forbidden host code points (WHATWG URL): a base whose authority contains
one of these makes the `URL` constructor throw. -/
def forbiddenHostChar (c : Char) : Bool :=
  c == ' ' || c == '<' || c == '>' || c == '@' || c == '['
    || c == '\\' || c == ']' || c == '^' || c == '|'

/-- ASCII tab and newline code points, which the URL constructor removes
from its input and base strings before parsing. -/
def tabOrNewline (c : Char) : Bool :=
  c == '\t' || c == '\n' || c == '\r'

/-- Model of `new URL(input, base)` restricted to the shapes the adapter
produces: `base` is `protocol ++ "://" ++ hostValue` and `input` is the raw
request target (normally beginning with `/`).  Modelled rewrites of the
real constructor: ASCII tab/newline characters are removed from both
strings before parsing, the scheme and host are ASCII-lowercased, and `\`
in the special-scheme path is rewritten to `/`.  The constructor throws
(`Except.error`) when the base has no usable scheme or authority or the
authority contains a forbidden host code point.  Not modelled: host
percent-decoding (and the rejection of `%` left in a domain by an invalid
escape), IDNA/punycode for non-ASCII hosts, IPv4 re-serialization of
numeric final labels, port parsing/validation after `:`, percent-encoding
of path/query code points, and dot-segment removal.  Every theorem below
therefore quantifies only over hosts satisfying `goodHost`, schemes
satisfying `goodScheme` and targets satisfying `plainTarget` — fragments
on which the real constructor performs none of the unmodelled
rewritings — or evaluates the model at concrete inputs (such as base
`https://undefined` and target `/foo?x=1`) where its agreement with the
real constructor can be checked directly. -/
def newURLData (input base : List Char) : Except String (List Char) :=
  match splitScheme (base.filter (fun c => !tabOrNewline c)) with
  | none => Except.error "Invalid URL"
  | some sp =>
    let auth := sp.2.takeWhile (fun c => !hostEndChar c)
    let path := (input.filter (fun c => !tabOrNewline c)).map
      (fun c => if c = '\\' then '/' else c)
    if sp.1.isEmpty then Except.error "Invalid URL"
    else if !sp.1.all Char.isAlpha then Except.error "Invalid URL"
    else if auth.isEmpty then Except.error "Invalid URL"
    else if auth.any forbiddenHostChar then Except.error "Invalid URL"
    else Except.ok (sp.1.map Char.toLower ++ ':' :: '/' :: '/' ::
      (auth.map Char.toLower ++ (if path.head? = some '/' then path else '/' :: path)))

/-- String-level wrapper of the `new URL(input, base)` model; on success the
result is `url.href`. -/
def newURL (input base : String) : Except String String :=
  (newURLData input.data base.data).map String.mk

/-- JS template-literal stringification of `req.get("host")`: an absent
value interpolates as the literal text `undefined`. -/
def jsString : Option String → String
  | some s => s
  | none => "undefined"

/-- `createRemixRequest` (server.ts lines 86-107 / 243-258): build the
origin `` `${req.protocol}://${req.get("host")}` ``, resolve the raw
`req.url` against it, translate the headers, wire the abort signal, and
attach the re-serialized body only when `hasBody` holds.  A throw of the
`URL` constructor surfaces as `Except.error`. -/
def createRemixRequest (req : GcfRequest) (abortController : AbortController) :
    Except String NodeRequest :=
  match newURL req.url (req.protocol ++ "://" ++ jsString req.host) with
  | Except.error e => Except.error e
  | Except.ok href =>
    Except.ok
      { href := href
        method := req.method
        headers := createRemixHeaders req.headers
        body := if hasBody req then some (createRemixBody req) else none
        signalAborted := abortController.aborted }

/-- The Standard Response body, as `sendRemixResponse` discriminates it:
a fully buffered byte payload (`Buffer.isBuffer`), a string, a readable
stream (an object carrying `.pipe`), or absent (`null`/`undefined`). -/
inductive ResponseBody where
  | buffer (data : String)
  | str (data : String)
  | stream (data : String)
  | empty
deriving DecidableEq

/-- The Standard Response produced by the framework handler: status,
status text, the multimap `headers.raw()` exposes (name, values in order),
and the body. -/
structure NodeResponse where
  status : Nat
  statusText : String
  headers : List (String × List String)
  body : ResponseBody
deriving DecidableEq

/-- One write performed on the platform response object `res`. -/
inductive ResAction where
  | setStatusMessage (s : String)
  | status (n : Nat)
  | appendHeader (name value : String)
  | setHeader (name value : String)
  | send (body : String)
  | endBody (body : String)
  | endEmpty
  | pipeTo (data : String)
deriving DecidableEq

/-- The effect of one `sendRemixResponse` invocation on the platform
response: the writes performed immediately, in order, and the writes that
run later when/if the piped stream completes (also in listener order). -/
structure EmitTrace where
  immediate : List ResAction
  onStreamEnd : List ResAction
deriving DecidableEq

/-- The trace of an invocation that never touched the platform response. -/
def emptyTrace : EmitTrace := ⟨[], []⟩

/-- The writes `sendRemixResponse` performs before looking at the abort
flag, identical in both variants (server.ts lines 114-121 / 263-270):
status message, status code, then every header value appended
individually. -/
def headerOpen (response : NodeResponse) : List ResAction :=
  ResAction.setStatusMessage response.statusText :: ResAction.status response.status ::
    (response.headers.map (fun p => p.2.map (fun v => ResAction.appendHeader p.1 v))).flatten

/-- `sendRemixResponse`, first variant (server.ts lines 109-135).  After the
common opening writes and the abort check, the body branch is:
`Buffer.isBuffer(body) || typeof body === 'string'` → `res.send(body)`;
else a body with `.pipe` → `body.on('end', res.end); body.pipe(res)`;
else `res.end()`.  In the streaming branch the explicit `'end'` listener
calls `res.end` when the stream completes, and `pipe` (default
`end: true`) also calls `res.end()` on the same event, in that listener
registration order — hence two deferred end calls. -/
def V1.sendRemixResponse (response : NodeResponse) (aborted : Bool) : EmitTrace :=
  { immediate :=
      headerOpen response
        ++ (if aborted then [ResAction.setHeader "Connection" "close"] else [])
        ++ (match response.body with
            | ResponseBody.buffer d => [ResAction.send d]
            | ResponseBody.str d => [ResAction.send d]
            | ResponseBody.stream d => [ResAction.pipeTo d]
            | ResponseBody.empty => [ResAction.endEmpty])
    onStreamEnd :=
      match response.body with
      | ResponseBody.stream _ => [ResAction.endEmpty, ResAction.endEmpty]
      | _ => [] }

/-- `sendRemixResponse`, second variant (server.ts lines 260-283).  Same
opening writes and abort check; the body branch is:
`Buffer.isBuffer(body)` → `res.end(body)`; else a body with `.pipe` →
`body.pipe(res)` (whose default `end: true` calls `res.end()` once at
stream completion); else `res.end()`.  A string body is not a Buffer and
has no `.pipe`, so it falls into the final bodyless `res.end()`. -/
def V2.sendRemixResponse (response : NodeResponse) (aborted : Bool) : EmitTrace :=
  { immediate :=
      headerOpen response
        ++ (if aborted then [ResAction.setHeader "Connection" "close"] else [])
        ++ (match response.body with
            | ResponseBody.buffer d => [ResAction.endBody d]
            | ResponseBody.str _ => [ResAction.endEmpty]
            | ResponseBody.stream d => [ResAction.pipeTo d]
            | ResponseBody.empty => [ResAction.endEmpty])
    onStreamEnd :=
      match response.body with
      | ResponseBody.stream _ => [ResAction.endEmpty]
      | _ => [] }

/-- Actions that write or close the response body (the three terminal body
actions of the spec; a `pipe` initiation is not itself terminal — its
terminal effect is the deferred end). -/
def isBodyTerminal : ResAction → Bool
  | ResAction.send _ => true
  | ResAction.endBody _ => true
  | ResAction.endEmpty => true
  | _ => false

/-- All terminal body actions an invocation performs, immediate ones first,
then the ones fired at stream completion. -/
def terminalActions (t : EmitTrace) : List ResAction :=
  (t.immediate ++ t.onStreamEnd).filter isBodyTerminal

/-- Actions that begin body finalization at the branch point (the buffered
write, the bodyless end, or connecting the stream). -/
def startsBodyFinalization : ResAction → Bool
  | ResAction.send _ => true
  | ResAction.endBody _ => true
  | ResAction.endEmpty => true
  | ResAction.pipeTo _ => true
  | _ => false

/-- The externally observable outcome of one invocation of the returned
request handler: the writes made to the platform response and the argument
`next` was invoked with (`some e` iff `next(error)` ran). -/
structure Outcome where
  res : EmitTrace
  next : Option String
deriving DecidableEq

/-- The request handler returned by `createRequestHandler` (server.ts lines
45-63 / 204-222): construct the Standard Request with a fresh
`AbortController`, run the framework handler, and emit the response; any
throw or rejection up to that point is caught and forwarded to `next`.
`emit` abstracts which variant's `sendRemixResponse` runs;
`abortedAtEmit` is the state of the abort signal when emission starts
(the platform may trigger the controller while the handler is awaited).
The framework handler is an injected capability returning either a
Standard Response or an error. -/
def handle (emit : NodeResponse → Bool → EmitTrace)
    (handler : NodeRequest → Except String NodeResponse)
    (req : GcfRequest) (abortedAtEmit : Bool) : Outcome :=
  match createRemixRequest req { aborted := false } with
  | Except.error e => { res := emptyTrace, next := some e }
  | Except.ok request =>
    match handler request with
    | Except.error e => { res := emptyTrace, next := some e }
    | Except.ok response => { res := emit response abortedAtEmit, next := none }

/-- Hexadecimal digit value, for decoding percent-escapes. -/
def hexVal (c : Char) : Nat :=
  if 48 ≤ c.toNat ∧ c.toNat ≤ 57 then c.toNat - 48
  else if 65 ≤ c.toNat ∧ c.toNat ≤ 70 then c.toNat - 55
  else if 97 ≤ c.toNat ∧ c.toNat ≤ 102 then c.toNat - 87
  else 0

/-- Decoding of form-urlencoded text (`+` → space, `%XY` → byte), in the
ASCII scope the concrete claims exercise. -/
def decodeChars : List Char → List Char
  | [] => []
  | '%' :: a :: b :: rest => Char.ofNat (16 * hexVal a + hexVal b) :: decodeChars rest
  | '+' :: rest => ' ' :: decodeChars rest
  | c :: rest => c :: decodeChars rest

/-- Split a character list on a separator character. -/
def splitOnChar (sep : Char) : List Char → List (List Char)
  | [] => [[]]
  | c :: rest =>
    let r := splitOnChar sep rest
    if c = sep then [] :: r
    else
      match r with
      | [] => [[c]]
      | g :: gs => (c :: g) :: gs

/-- Split a pair at its first `=`. -/
def splitFirstEq : List Char → List Char × List Char
  | [] => ([], [])
  | '=' :: rest => ([], rest)
  | c :: rest =>
    let p := splitFirstEq rest
    (c :: p.1, p.2)

/-- Decoder for form-urlencoded text back to key/value pairs in order — the
observation "decoded as form-urlencoded text" of the spec's round-trip
property. -/
def parseForm (s : String) : List (String × String) :=
  (splitOnChar '&' s.data).map (fun kv =>
    let p := splitFirstEq kv
    (String.mk (decodeChars p.1), String.mk (decodeChars p.2)))

/-- Platform request of the spec's URL example: GET, https, host
`example.com`, raw target `/foo?x=1`, no headers, no body. -/
def exampleReq : GcfRequest :=
  ⟨"https", some "example.com", "/foo?x=1", "GET", [], none⟩

/-- The same request with an empty host header value. -/
def emptyHostReq : GcfRequest :=
  ⟨"https", some "", "/foo?x=1", "GET", [], none⟩

/-- Platform request with parsed body `{ a: "1", b: "2" }`. -/
def abReq : GcfRequest :=
  ⟨"https", some "example.com", "/submit", "POST", [], some [("a", "1"), ("b", "2")]⟩

/-- Platform request with body `undefined`/`null`. -/
def nullBodyReq : GcfRequest :=
  ⟨"https", some "example.com", "/", "GET", [], none⟩

/-- Platform request with body `{}`. -/
def emptyBodyReq : GcfRequest :=
  ⟨"https", some "example.com", "/", "GET", [], some []⟩

/-- Platform request with body `{ a: "1" }`. -/
def aBodyReq : GcfRequest :=
  ⟨"https", some "example.com", "/", "GET", [], some [("a", "1")]⟩

/-- The Standard Request built from `exampleReq`. -/
def rExample : NodeRequest :=
  ⟨"https://example.com/foo?x=1", "GET", ⟨[]⟩, none, false⟩

/-- The Standard Request built from `abReq`. -/
def rAB : NodeRequest :=
  ⟨"https://example.com/submit", "POST", ⟨[]⟩, some "a=1&b=2", false⟩

/-- The Standard Request built from `nullBodyReq`. -/
def rRoot : NodeRequest :=
  ⟨"https://example.com/", "GET", ⟨[]⟩, none, false⟩

/-- Standard Response of the spec's emission example: 201, `x-test`
mapped to `["v1", "v2"]`, string body `"ok"`. -/
def okResp : NodeResponse :=
  ⟨201, "Created", [("x-test", ["v1", "v2"])], ResponseBody.str "ok"⟩

/-- A Standard Response with a streaming body. -/
def streamResp : NodeResponse :=
  ⟨200, "OK", [], ResponseBody.stream "data"⟩

/-- The emission example with a buffered byte payload instead of a
string. -/
def bufResp : NodeResponse :=
  ⟨201, "Created", [("x-test", ["v1", "v2"])], ResponseBody.buffer "ok"⟩

/-- A framework-handler stub returning `okResp`. -/
def stubHandler : NodeRequest → Except String NodeResponse :=
  fun _ => Except.ok okResp

/-- A framework-handler stub that rejects. -/
def failHandler : NodeRequest → Except String NodeResponse :=
  fun _ => Except.error "boom"

/-- Header mapping with two names equal up to case: the array under `foo`
followed by a scalar under `Foo`. -/
def caseCollide : List (String × HeaderValue) :=
  [("foo", HeaderValue.arr ["b", "c"]), ("Foo", HeaderValue.str "a")]

/-- Header mapping exercising all three kinds of entry with pairwise
case-insensitively distinct names. -/
def headerSample : List (String × HeaderValue) :=
  [("set-cookie", HeaderValue.arr ["a=1", "b=2"]), ("x-single", HeaderValue.str "v"),
   ("x-und", HeaderValue.undef), ("x-empty", HeaderValue.str "")]

/-- The Standard Request built from `exampleReq` by a run whose fresh
controller is already aborted. -/
def rExampleAborted : NodeRequest :=
  ⟨"https://example.com/foo?x=1", "GET", ⟨[]⟩, none, true⟩

/- ## Helper lemmas -/

theorem valuesAppend (h : NodeHeaders) (k v n : String) :
    (h.append k v).values n =
      h.values n ++ (if lowerStr k = lowerStr n then [v] else []) := by
  by_cases hk : lowerStr k = lowerStr n
  · simp [NodeHeaders.append, NodeHeaders.values, List.filter_append, hk]
  · simp [NodeHeaders.append, NodeHeaders.values, List.filter_append, hk]

theorem filterNeFilterSame (l : List (String × String)) (a : String) :
    (l.filter (fun p => p.1 != a)).filter (fun p => p.1 == a) = [] := by
  induction l with
  | nil => rfl
  | cons e t ih =>
    by_cases he : e.1 = a <;> simp [List.filter_cons, he, ih]

theorem filterNeFilterEq (l : List (String × String)) (a b : String) (hne : b ≠ a) :
    (l.filter (fun p => p.1 != a)).filter (fun p => p.1 == b) =
      l.filter (fun p => p.1 == b) := by
  induction l with
  | nil => rfl
  | cons e t ih =>
    by_cases he : e.1 = a
    · have heb : ¬ e.1 = b := fun hb => hne (hb ▸ he ▸ rfl)
      simp [List.filter_cons, he, heb, ih, Ne.symm hne]
    · simp [List.filter_cons, he, ih]

theorem valuesSet (h : NodeHeaders) (k v n : String) :
    (h.set k v).values n = if lowerStr k = lowerStr n then [v] else h.values n := by
  by_cases hk : lowerStr k = lowerStr n
  · rw [if_pos hk]
    simp [NodeHeaders.set, NodeHeaders.values, List.filter_append, hk, filterNeFilterSame]
  · rw [if_neg hk]
    simp [NodeHeaders.set, NodeHeaders.values, List.filter_append,
      filterNeFilterEq h.entries (lowerStr k) (lowerStr n) (fun he => hk he.symm), hk]

theorem valuesAppendList (vs : List String) (h : NodeHeaders) (k n : String) :
    ((vs.foldl (fun acc v => acc.append k v) h).values n) =
      h.values n ++ (if lowerStr k = lowerStr n then vs else []) := by
  induction vs generalizing h with
  | nil => simp
  | cons v t ih =>
    rw [List.foldl_cons, ih, valuesAppend]
    by_cases hk : lowerStr k = lowerStr n
    · simp [hk]
    · simp [hk]

theorem valuesApplyHeader (h : NodeHeaders) (k : String) (v : HeaderValue) (n : String) :
    (applyHeader h (k, v)).values n =
      if lowerStr k = lowerStr n then
        match v with
        | HeaderValue.undef => h.values n
        | HeaderValue.str s => if s = "" then h.values n else [s]
        | HeaderValue.arr vs => h.values n ++ vs
      else h.values n := by
  cases v with
  | undef => simp [applyHeader]
  | str s =>
    by_cases hs : s = ""
    · simp [applyHeader, hs]
    · by_cases hk : lowerStr k = lowerStr n <;> simp [applyHeader, hs, hk, valuesSet]
  | arr vs =>
    by_cases hk : lowerStr k = lowerStr n <;> simp [applyHeader, hk, valuesAppendList]

theorem valuesFoldlSkip (ms : List (String × HeaderValue)) (h : NodeHeaders) (n : String)
    (hms : ∀ p ∈ ms, lowerStr p.1 = lowerStr n →
      p.2 = HeaderValue.undef ∨ p.2 = HeaderValue.str "") :
    (ms.foldl applyHeader h).values n = h.values n := by
  induction ms generalizing h with
  | nil => rfl
  | cons e t ih =>
    obtain ⟨k, v⟩ := e
    rw [List.foldl_cons, ih _ (fun p hp hp1 => hms p (List.mem_cons_of_mem _ hp) hp1)]
    rw [valuesApplyHeader]
    by_cases hk : lowerStr k = lowerStr n
    · rcases hms (k, v) (List.mem_cons_self _ _) hk with h1 | h1
      · rw [show v = HeaderValue.undef from h1]; simp [hk]
      · rw [show v = HeaderValue.str "" from h1]; simp [hk]
    · simp [hk]

theorem valuesFoldlEntry (ms : List (String × HeaderValue)) (h : NodeHeaders)
    (k : String) (v : HeaderValue)
    (hdist : ms.Pairwise (fun p q => lowerStr p.1 ≠ lowerStr q.1))
    (hmem : (k, v) ∈ ms) :
    (ms.foldl applyHeader h).values k =
      match v with
      | HeaderValue.undef => h.values k
      | HeaderValue.str s => if s = "" then h.values k else [s]
      | HeaderValue.arr vs => h.values k ++ vs := by
  obtain ⟨pre, post, rfl⟩ := List.append_of_mem hmem
  rw [List.pairwise_append] at hdist
  have hpre : ∀ p ∈ pre, lowerStr p.1 ≠ lowerStr k :=
    fun p hp => hdist.2.2 p hp (k, v) (List.mem_cons_self _ _)
  have hpost : ∀ p ∈ post, lowerStr p.1 ≠ lowerStr k := by
    intro p hp
    have hkp := (List.pairwise_cons.mp hdist.2.1).1 p hp
    exact fun he => hkp he.symm
  rw [List.foldl_append, List.foldl_cons]
  rw [valuesFoldlSkip post _ _ (fun p hp hp1 => absurd hp1 (hpost p hp))]
  rw [valuesApplyHeader, if_pos rfl]
  rw [valuesFoldlSkip pre h k (fun p hp hp1 => absurd hp1 (hpre p hp))]
  cases v <;> rfl

/-- C3 (amended): for every platform header mapping whose names are
pairwise distinct after ASCII lowercasing (which the Node HTTP parser
guarantees by lowercasing incoming names), `createRemixHeaders` yields all
the values of an array entry under that name, in original order, as
separate entries; a name mapped to a nonempty scalar yields exactly that
single set value; and a name whose (case-insensitive) occurrences are all
falsy or missing is absent from the result.  Without the distinctness
proviso the original claim fails, because a later scalar `set` deletes
earlier appended values of a case-variant name — see the
counterexample. -/
theorem c3_header_translation (ms : List (String × HeaderValue))
    (hdist : ms.Pairwise (fun p q => lowerStr p.1 ≠ lowerStr q.1)) :
    (∀ k vs, (k, HeaderValue.arr vs) ∈ ms → (createRemixHeaders ms).values k = vs) ∧
    (∀ k s, (k, HeaderValue.str s) ∈ ms → s ≠ "" → (createRemixHeaders ms).values k = [s]) ∧
    (∀ k, (∀ p ∈ ms, lowerStr p.1 = lowerStr k →
        p.2 = HeaderValue.undef ∨ p.2 = HeaderValue.str "") →
      (createRemixHeaders ms).values k = []) := by
  refine ⟨?_, ?_, ?_⟩
  · intro k vs hmem
    have h := valuesFoldlEntry ms ⟨[]⟩ k (HeaderValue.arr vs) hdist hmem
    simpa [createRemixHeaders, NodeHeaders.values] using h
  · intro k s hmem hs
    have h := valuesFoldlEntry ms ⟨[]⟩ k (HeaderValue.str s) hdist hmem
    simpa [createRemixHeaders, NodeHeaders.values, hs] using h
  · intro k hall
    have h := valuesFoldlSkip ms ⟨[]⟩ k hall
    simpa [createRemixHeaders, NodeHeaders.values] using h

/-- Witness for C3: the amended theorem evaluated on a concrete mapping
with an array, a scalar, an `undefined` and an empty-string entry. -/
theorem c3_header_translation_witness :
    (createRemixHeaders headerSample).values "set-cookie" = ["a=1", "b=2"] ∧
    (createRemixHeaders headerSample).values "x-single" = ["v"] ∧
    (createRemixHeaders headerSample).values "x-und" = [] ∧
    (createRemixHeaders headerSample).values "x-empty" = [] := by
  have h := c3_header_translation headerSample (by decide)
  exact ⟨h.1 "set-cookie" ["a=1", "b=2"] (by decide),
    h.2.1 "x-single" "v" (by decide) (by decide),
    h.2.2 "x-und" (by decide),
    h.2.2 "x-empty" (by decide)⟩

/-- C3 counterexample: in the mapping `{ foo: ["b", "c"], Foo: "a" }` the
name `foo` maps to an array of two values, yet the translated collection
holds neither of them — the later scalar `Foo` entry's `set` removed them
(fetch `Headers` names are case-insensitive).  This refutes the claim as
stated for arbitrary platform header mappings. -/
theorem c3_counterexample :
    (createRemixHeaders caseCollide).values "foo" = ["a"] ∧
    "b" ∉ (createRemixHeaders caseCollide).values "foo" ∧
    "c" ∉ (createRemixHeaders caseCollide).values "foo" := by
  decide

/-- C5: `hasBody` holds iff the parsed body is truthy
(`none` models both `undefined` and `null`) and has at least one
enumerable key; in particular it is `false` for `undefined`/`null` and
`{}` and `true` for `{ a: "1" }`, and whenever it is `false` the
constructed Standard Request carries no body. -/
theorem c5_hasBody_rule :
    (∀ req : GcfRequest, hasBody req = true ↔ ∃ p t, req.body = some (p :: t)) ∧
    hasBody nullBodyReq = false ∧ hasBody emptyBodyReq = false ∧ hasBody aBodyReq = true ∧
    (∀ (req : GcfRequest) (ac : AbortController) (r : NodeRequest),
      hasBody req = false → createRemixRequest req ac = Except.ok r → r.body = none) := by
  refine ⟨?_, rfl, rfl, rfl, ?_⟩
  · intro req
    cases hb : req.body with
    | none => simp [hasBody, hb]
    | some l =>
      cases l with
      | nil => simp [hasBody, hb]
      | cons p t =>
        simp only [hasBody, hb, List.isEmpty_cons, Bool.not_false, true_iff]
        exact ⟨p, t, rfl⟩
  · intro req ac r hfalse hok
    unfold createRemixRequest at hok
    cases hurl : newURL req.url (req.protocol ++ "://" ++ jsString req.host) with
    | error e => rw [hurl] at hok; cases hok
    | ok href =>
      rw [hurl] at hok
      cases hok
      simp [hfalse]

/-- Witness for C5: the rule applied at concrete requests — the body
presence test at `{ a: "1" }`, and the no-body-attached consequence at a
request with an absent parsed body. -/
theorem c5_hasBody_rule_witness :
    (hasBody aBodyReq = true ↔ ∃ p t, aBodyReq.body = some (p :: t)) ∧ rRoot.body = none :=
  ⟨c5_hasBody_rule.1 aBodyReq,
    c5_hasBody_rule.2.2.2.2 nullBodyReq ⟨false⟩ rRoot rfl rfl⟩

/-- C9: Standard Request construction is deterministic — two runs of
`createRemixRequest` on the same platform request (each with its own fresh
controller) produce the same URL string, method, header multimap and body
bytes; the embedding of the construction steps reads no mutable state, and
the controller influences only the attached signal. -/
theorem c9_deterministic_construction :
    ∀ (req : GcfRequest) (ac₁ ac₂ : AbortController) (r₁ r₂ : NodeRequest),
      createRemixRequest req ac₁ = Except.ok r₁ →
      createRemixRequest req ac₂ = Except.ok r₂ →
      r₁.href = r₂.href ∧ r₁.method = r₂.method ∧ r₁.headers = r₂.headers ∧
        r₁.body = r₂.body := by
  intro req ac₁ ac₂ r₁ r₂ h1 h2
  unfold createRemixRequest at h1 h2
  cases hurl : newURL req.url (req.protocol ++ "://" ++ jsString req.host) with
  | error e => rw [hurl] at h1; cases h1
  | ok href =>
    rw [hurl] at h1 h2
    cases h1
    cases h2
    exact ⟨rfl, rfl, rfl, rfl⟩

/-- Witness for C9: two concrete runs over the example request, one with
an unaborted and one with an aborted fresh controller, agree on every
observable field. -/
theorem c9_deterministic_construction_witness :
    rExample.href = rExampleAborted.href ∧ rExample.method = rExampleAborted.method ∧
      rExample.headers = rExampleAborted.headers ∧ rExample.body = rExampleAborted.body :=
  c9_deterministic_construction exampleReq ⟨false⟩ ⟨true⟩ rExample rExampleAborted rfl rfl

/-- C4: when the parsed platform body is present (per `hasBody`), the
body attached to the Standard Request is the parsed structure's flat
key/value pairs re-encoded as a single form-urlencoded string in
encounter order; concretely `{ a: "1", b: "2" }` re-serializes to
`a=1&b=2`, which decodes as form-urlencoded text back to exactly those
pairs in that order. -/
theorem c4_body_reserialization :
    (∀ (req : GcfRequest) (ac : AbortController) (r : NodeRequest),
      hasBody req = true → createRemixRequest req ac = Except.ok r →
      r.body = some (serializeSearchParams (req.body.getD []))) ∧
    createRemixBody abReq = "a=1&b=2" ∧
    parseForm "a=1&b=2" = [("a", "1"), ("b", "2")] := by
  refine ⟨?_, by decide, by decide⟩
  intro req ac r htrue hok
  unfold createRemixRequest at hok
  cases hurl : newURL req.url (req.protocol ++ "://" ++ jsString req.host) with
  | error e => rw [hurl] at hok; cases hok
  | ok href =>
    rw [hurl] at hok
    cases hok
    simp [htrue, createRemixBody]

/-- Witness for C4: the general re-serialization fact applied at the
concrete `{ a: "1", b: "2" }` request. -/
theorem c4_body_reserialization_witness :
    rAB.body = some (serializeSearchParams (abReq.body.getD [])) :=
  c4_body_reserialization.1 abReq ⟨false⟩ rAB rfl rfl

/-- C6: whenever Standard Request construction throws, or the framework
handler rejects, the returned request handler invokes the `next`
completion callback with that error as its first argument; the error is
caught rather than escaping (the outcome is total by construction), and
the platform response receives no status, header, or body writes from
this layer. -/
theorem c6_error_propagation :
    (∀ (emit : NodeResponse → Bool → EmitTrace)
        (handler : NodeRequest → Except String NodeResponse)
        (req : GcfRequest) (b : Bool) (e : String),
      createRemixRequest req { aborted := false } = Except.error e →
      handle emit handler req b = { res := emptyTrace, next := some e }) ∧
    (∀ (emit : NodeResponse → Bool → EmitTrace)
        (handler : NodeRequest → Except String NodeResponse)
        (req : GcfRequest) (b : Bool) (r : NodeRequest) (e : String),
      createRemixRequest req { aborted := false } = Except.ok r →
      handler r = Except.error e →
      handle emit handler req b = { res := emptyTrace, next := some e }) := by
  constructor
  · intro emit handler req b e hcr
    simp [handle, hcr]
  · intro emit handler req b r e hcr hh
    simp [handle, hcr, hh]

/-- Witness for C6: a rejecting framework handler on the example request,
and a construction failure on the empty-host request, both reach `next`
with the error while the platform response stays untouched. -/
theorem c6_error_propagation_witness :
    handle V1.sendRemixResponse failHandler exampleReq false
      = { res := emptyTrace, next := some "boom" } ∧
    handle V2.sendRemixResponse stubHandler emptyHostReq false
      = { res := emptyTrace, next := some "Invalid URL" } :=
  ⟨c6_error_propagation.2 V1.sendRemixResponse failHandler exampleReq false rExample "boom"
      rfl rfl,
   c6_error_propagation.1 V2.sendRemixResponse stubHandler emptyHostReq false "Invalid URL" rfl⟩

theorem filterTerminalHeaderOpen (resp : NodeResponse) :
    (headerOpen resp).filter isBodyTerminal = [] := by
  rw [List.filter_eq_nil_iff]
  intro a ha
  simp only [headerOpen, List.mem_cons, List.mem_flatten, List.mem_map] at ha
  rcases ha with rfl | rfl | ⟨l, ⟨p, _hp, rfl⟩, hal⟩
  · simp [isBodyTerminal]
  · simp [isBodyTerminal]
  · obtain ⟨v, _hv, rfl⟩ := List.mem_map.mp hal
    simp [isBodyTerminal]

/-- C2 (amended): in the first variant, a Standard Response whose body is
a buffered byte payload or a string is written onto the platform response
as the complete body in one terminal `send`, and the concrete
201/`x-test`/`"ok"` example produces exactly the claimed write sequence;
in the second variant only a buffered byte payload is written (one
terminal `end(body)`) — a string body there is never written at all (see
the counterexample). -/
theorem c2_terminal_write :
    (∀ (resp : NodeResponse) (ab : Bool) (d : String),
      resp.body = ResponseBody.buffer d ∨ resp.body = ResponseBody.str d →
      terminalActions (V1.sendRemixResponse resp ab) = [ResAction.send d]) ∧
    (∀ (resp : NodeResponse) (ab : Bool) (d : String),
      resp.body = ResponseBody.buffer d →
      terminalActions (V2.sendRemixResponse resp ab) = [ResAction.endBody d]) ∧
    (V1.sendRemixResponse okResp false).immediate =
      [ResAction.setStatusMessage "Created", ResAction.status 201,
       ResAction.appendHeader "x-test" "v1", ResAction.appendHeader "x-test" "v2",
       ResAction.send "ok"] := by
  refine ⟨?_, ?_, by decide⟩
  · intro resp ab d hb
    unfold terminalActions V1.sendRemixResponse
    rcases hb with hb | hb <;> rw [hb] <;> cases ab <;>
      simp [List.filter_append, filterTerminalHeaderOpen, isBodyTerminal]
  · intro resp ab d hb
    unfold terminalActions V2.sendRemixResponse
    rw [hb]
    cases ab <;> simp [List.filter_append, filterTerminalHeaderOpen, isBodyTerminal]

/-- Witness for C2: the two general clauses evaluated at the concrete
emission example, with a string body in the first variant and a buffered
body in the second. -/
theorem c2_terminal_write_witness :
    terminalActions (V1.sendRemixResponse okResp false) = [ResAction.send "ok"] ∧
    terminalActions (V2.sendRemixResponse bufResp false) = [ResAction.endBody "ok"] :=
  ⟨c2_terminal_write.1 okResp false "ok" (Or.inr rfl),
   c2_terminal_write.2.1 bufResp false "ok" rfl⟩

/-- C2 counterexample: in the second variant the emission example's string
body `"ok"` is never written — the buffered-body test is `Buffer.isBuffer`
alone and a string has no `.pipe`, so emission falls through to the
bodyless `res.end()`.  This refutes the claim for the second of its two
cited code sites. -/
theorem c2_counterexample :
    (V2.sendRemixResponse okResp false).immediate =
      [ResAction.setStatusMessage "Created", ResAction.status 201,
       ResAction.appendHeader "x-test" "v1", ResAction.appendHeader "x-test" "v2",
       ResAction.endEmpty] ∧
    ResAction.send "ok" ∉ (V2.sendRemixResponse okResp false).immediate ∧
    ResAction.endBody "ok" ∉ (V2.sendRemixResponse okResp false).immediate := by
  decide

/-- C7: when the cancellation signal is aborted at the emission check
point, both variants set the platform response's `Connection` header to
`close` immediately before the terminal body action, for every body shape
(buffered, string, streamed, or absent). -/
theorem c7_connection_close (resp : NodeResponse) :
    ∃ t₁ t₂, startsBodyFinalization t₁ = true ∧ startsBodyFinalization t₂ = true ∧
      (V1.sendRemixResponse resp true).immediate =
        headerOpen resp ++ [ResAction.setHeader "Connection" "close", t₁] ∧
      (V2.sendRemixResponse resp true).immediate =
        headerOpen resp ++ [ResAction.setHeader "Connection" "close", t₂] := by
  obtain ⟨st, sm, hs, body⟩ := resp
  cases body with
  | buffer d =>
    refine ⟨ResAction.send d, ResAction.endBody d, rfl, rfl, ?_, ?_⟩ <;>
      simp [V1.sendRemixResponse, V2.sendRemixResponse]
  | str d =>
    refine ⟨ResAction.send d, ResAction.endEmpty, rfl, rfl, ?_, ?_⟩ <;>
      simp [V1.sendRemixResponse, V2.sendRemixResponse]
  | stream d =>
    refine ⟨ResAction.pipeTo d, ResAction.pipeTo d, rfl, rfl, ?_, ?_⟩ <;>
      simp [V1.sendRemixResponse, V2.sendRemixResponse]
  | empty =>
    refine ⟨ResAction.endEmpty, ResAction.endEmpty, rfl, rfl, ?_, ?_⟩ <;>
      simp [V1.sendRemixResponse, V2.sendRemixResponse]

/-- Witness for C7: the connection-close placement under abort at the
concrete emission example. -/
theorem c7_connection_close_witness :
    ∃ t₁ t₂, startsBodyFinalization t₁ = true ∧ startsBodyFinalization t₂ = true ∧
      (V1.sendRemixResponse okResp true).immediate =
        headerOpen okResp ++ [ResAction.setHeader "Connection" "close", t₁] ∧
      (V2.sendRemixResponse okResp true).immediate =
        headerOpen okResp ++ [ResAction.setHeader "Connection" "close", t₂] :=
  c7_connection_close okResp

/-- C8 (code bug in the first variant): at a streaming response the first
variant ends the platform response twice when the stream completes — the
explicit `body.on('end', res.end)` listener fires, and `pipe`'s default
`end: true` calls `res.end()` again on the same event — while the claim
requires the terminal action never to be doubled.  The second variant
performs exactly one deferred end. -/
theorem c8_stream_double_end :
    terminalActions (V1.sendRemixResponse streamResp false)
      = [ResAction.endEmpty, ResAction.endEmpty] ∧
    terminalActions (V2.sendRemixResponse streamResp false) = [ResAction.endEmpty] := by
  decide

/-- C10: aborting suppresses nothing — the writes performed by an aborted
emission are exactly the writes of the unaborted emission with one extra
`Connection: close` set header inserted after the header appends; status,
status text, every appended header value, the terminal body action and
the deferred stream-completion actions are unchanged, in both
variants. -/
theorem c10_abort_frame (resp : NodeResponse) :
    ∃ tail₁ s₁ tail₂ s₂,
      V1.sendRemixResponse resp false = ⟨headerOpen resp ++ tail₁, s₁⟩ ∧
      V1.sendRemixResponse resp true =
        ⟨headerOpen resp ++ ResAction.setHeader "Connection" "close" :: tail₁, s₁⟩ ∧
      V2.sendRemixResponse resp false = ⟨headerOpen resp ++ tail₂, s₂⟩ ∧
      V2.sendRemixResponse resp true =
        ⟨headerOpen resp ++ ResAction.setHeader "Connection" "close" :: tail₂, s₂⟩ := by
  obtain ⟨st, sm, hs, body⟩ := resp
  cases body with
  | buffer d =>
    refine ⟨[ResAction.send d], [], [ResAction.endBody d], [], ?_, ?_, ?_, ?_⟩ <;>
      simp [V1.sendRemixResponse, V2.sendRemixResponse]
  | str d =>
    refine ⟨[ResAction.send d], [], [ResAction.endEmpty], [], ?_, ?_, ?_, ?_⟩ <;>
      simp [V1.sendRemixResponse, V2.sendRemixResponse]
  | stream d =>
    refine ⟨[ResAction.pipeTo d], [ResAction.endEmpty, ResAction.endEmpty],
        [ResAction.pipeTo d], [ResAction.endEmpty], ?_, ?_, ?_, ?_⟩ <;>
      simp [V1.sendRemixResponse, V2.sendRemixResponse]
  | empty =>
    refine ⟨[ResAction.endEmpty], [], [ResAction.endEmpty], [], ?_, ?_, ?_, ?_⟩ <;>
      simp [V1.sendRemixResponse, V2.sendRemixResponse]

/-- Witness for C10: the abort frame property at the concrete streaming
response. -/
theorem c10_abort_frame_witness :
    ∃ tail₁ s₁ tail₂ s₂,
      V1.sendRemixResponse streamResp false = ⟨headerOpen streamResp ++ tail₁, s₁⟩ ∧
      V1.sendRemixResponse streamResp true =
        ⟨headerOpen streamResp ++ ResAction.setHeader "Connection" "close" :: tail₁, s₁⟩ ∧
      V2.sendRemixResponse streamResp false = ⟨headerOpen streamResp ++ tail₂, s₂⟩ ∧
      V2.sendRemixResponse streamResp true =
        ⟨headerOpen streamResp ++ ResAction.setHeader "Connection" "close" :: tail₂, s₂⟩ :=
  c10_abort_frame streamResp

end RemixGcf
